import Mathlib

/-!
Verification development for `tack` (v0.6.0, `src/tack.c`), a single-file C
build driver.  The C code is shallowly embedded: file modification times are
an oracle `FS : String → Option Nat` (`none` = file absent; `file_mtime`
returns `-1` for an absent file exactly as the C helper does), file contents
are oracles as well, and each C function that the claims mention is
translated into an executable Lean function of the same name.
-/

namespace Tack

/-- Filesystem mtime oracle: `none` means the path does not exist,
`some t` means the path exists with modification time `t`. -/
abbrev FS := String → Option Nat

/-- C `file_exists`: `stat` succeeds. -/
def file_exists (fs : FS) (p : String) : Bool := (fs p).isSome

/-- C `file_mtime`: `-1` when `stat` fails, the mtime otherwise. -/
def file_mtime (fs : FS) (p : String) : Int :=
  match fs p with
  | none => -1
  | some t => (t : Int)

/-- C-locale `isspace`. -/
def isSpaceC (c : Char) : Bool :=
  c = ' ' || c = '\t' || c = '\n' || c = '\x0b' || c = '\x0c' || c = '\r'

/-! ### Depfile parsing (`depfile_needs_rebuild`, tack.c:2283)

The C parser reads the depfile byte by byte, accumulating the current token
in a 2048-byte buffer (`tok`), so a token is silently truncated to 2047
characters; `depPush` reproduces that bound.  `depLoop` is the parsing loop;
it checks each dependency token's mtime as soon as the token is delimited and
returns `true` (rebuild) at the first missing-or-newer dependency. -/

/-- `tok[ti++] = c` guarded by `ti < sizeof(tok) - 1`. -/
def depPush (tok : List Char) (c : Char) : List Char :=
  if tok.length < 2047 then tok ++ [c] else tok

/-- The per-token staleness test on a completed dependency token:
`dt < 0 || dt > obj_t` with `dt = file_mtime(tok)`. -/
def depBad (fs : FS) (obj_t : Int) (tok : List Char) : Bool :=
  file_mtime fs (String.mk tok) < 0 || file_mtime fs (String.mk tok) > obj_t

/-- The check after the read loop: `if (ti > 0 && seen_colon) { ... }`. -/
def depFinal (fs : FS) (obj_t : Int) (tok : List Char) (seen : Bool) : Bool :=
  if tok.length > 0 && seen then depBad fs obj_t tok else false

/-- The `while ((c = fgetc(f)) != EOF)` loop of `depfile_needs_rebuild`,
threading the current token and the `seen_colon` flag. -/
def depLoop (fs : FS) (obj_t : Int) : List Char → List Char → Bool → Bool
  | [], tok, seen => depFinal fs obj_t tok seen
  | c :: rest, tok, seen =>
    if c = '\\' then
      match rest with
      | [] => depFinal fs obj_t tok seen
      | n :: rest' =>
        if n = '\n' || n = '\r' then depLoop fs obj_t rest' tok seen
        else depLoop fs obj_t rest' (depPush tok n) seen
    else if c = ':' && !seen then depLoop fs obj_t rest [] true
    else if isSpaceC c then
      if tok.length > 0 then
        if seen then
          if depBad fs obj_t tok then true else depLoop fs obj_t rest [] seen
        else depLoop fs obj_t rest [] seen
      else depLoop fs obj_t rest tok seen
    else depLoop fs obj_t rest (depPush tok c) seen

/-- The dependency tokens of a depfile stream: the whitespace-delimited
tokens produced after the first unescaped colon — exactly the tokens whose
mtimes `depLoop` checks.  This is the spec-side tokenizer used to state the
claims about the grammar. -/
def depTokens : List Char → List Char → Bool → List (List Char)
  | [], tok, seen => if tok.length > 0 && seen then [tok] else []
  | c :: rest, tok, seen =>
    if c = '\\' then
      match rest with
      | [] => if tok.length > 0 && seen then [tok] else []
      | n :: rest' =>
        if n = '\n' || n = '\r' then depTokens rest' tok seen
        else depTokens rest' (depPush tok n) seen
    else if c = ':' && !seen then depTokens rest [] true
    else if isSpaceC c then
      if tok.length > 0 then
        if seen then tok :: depTokens rest [] seen
        else depTokens rest [] seen
      else depTokens rest tok seen
    else depTokens rest (depPush tok c) seen

/-- C `depfile_needs_rebuild` (tack.c:2283).  The depfile's content is an
oracle `depc : String → Option (List Char)`; `none` models `fopen` failing. -/
def depfile_needs_rebuild (fs : FS) (depc : String → Option (List Char))
    (obj_path dep_path : String) : Bool :=
  let obj_t := file_mtime fs obj_path
  if obj_t < 0 then true
  else
    match depc dep_path with
    | none => true
    | some content => depLoop fs obj_t content [] false

/-- C `obj_needs_rebuild` (tack.c:2349), with `USE_DEPFILES = 1` as in the
source. -/
def obj_needs_rebuild (fs : FS) (depc : String → Option (List Char))
    (obj_path src_path dep_path : String) (force : Bool) : Bool :=
  if force then true
  else
    let obj_t := file_mtime fs obj_path
    if obj_t < 0 then true
    else
      let src_t := file_mtime fs src_path
      if src_t < 0 then true
      else if src_t > obj_t then true
      else depfile_needs_rebuild fs depc obj_path dep_path

/-! ### Target graph (`Target`, `TargetVec`, tack.c:2471-2590) -/

/-- C `Target` (tack.c:2471). -/
structure Target where
  name : String
  id : String
  src_dir : String
  bin_base : String
  enabled : Bool
deriving Repr, DecidableEq

/-- C `TargetDef` (tack.c:2380).  Every `const char *` field may be null,
modeled as `Option String`. -/
structure TargetDef where
  name : Option String
  src_dir : Option String
  bin_base : Option String
  id : Option String
  enabled : Bool
  remove : Bool
deriving Repr, DecidableEq

/-- C `sanitize_name_to_id` (tack.c:175): keep ASCII alphanumerics, `_`
and `-`, replace everything else by `_`; the callers pass a 256-byte
buffer, so the result is capped at 255 characters. -/
def sanitize_name_to_id (name : String) : String :=
  String.mk ((name.toList.take 255).map
    (fun c => if c.isAlphanum || c = '_' || c = '-' then c else '_'))

/-- C `tv_push` (tack.c:2499): append a new target, derive `id` from the
name, `enabled = 1`. -/
def tv_push (v : List Target) (name src_dir bin_base : String) : List Target :=
  v ++ [{ name := name, id := sanitize_name_to_id name, src_dir := src_dir,
          bin_base := bin_base, enabled := true }]

/-- C `tv_find_index_by_name` (tack.c:2522): first index whose `name`
matches exactly, `none` for `-1`. -/
def tv_find_index_by_name (v : List Target) (name : String) : Option Nat :=
  v.findIdx? (fun t => t.name = name)

/-- In-place update of one vector slot; out-of-range indices leave the
vector unchanged, matching the C guards `idx < 0 || idx >= v->count`. -/
def tv_modify_at (v : List Target) (idx : Nat) (f : Target → Target) : List Target :=
  match v, idx with
  | [], _ => []
  | t :: rest, 0 => f t :: rest
  | t :: rest, n + 1 => t :: tv_modify_at rest n f

/-- C `tv_update_at_fields` (tack.c:2543): overwrite `src_dir`, `bin_base`
and `id` with the non-null fields of the def. -/
def tv_update_at_fields (v : List Target) (idx : Nat) (d : TargetDef) : List Target :=
  tv_modify_at v idx (fun t =>
    { t with
      src_dir := d.src_dir.getD t.src_dir
      bin_base := d.bin_base.getD t.bin_base
      id := d.id.getD t.id })

/-- C `tv_apply_targetdef` (tack.c:2560). -/
def tv_apply_targetdef (v : List Target) (d : TargetDef) : List Target :=
  match d.name with
  | none => v
  | some nm =>
    let idx? := tv_find_index_by_name v nm
    if d.remove then
      match idx? with
      | some i => v.eraseIdx i
      | none => v
    else if d.src_dir = none && d.bin_base = none && d.id = none then
      match idx? with
      | some i => tv_modify_at v i (fun t => { t with enabled := d.enabled })
      | none => v
    else
      match idx? with
      | some i =>
        tv_modify_at (tv_update_at_fields v i d) i (fun t => { t with enabled := d.enabled })
      | none =>
        let v' := tv_push v nm (d.src_dir.getD "src") (d.bin_base.getD "app")
        let i := v'.length - 1
        tv_modify_at (tv_update_at_fields v' i d) i (fun t => { t with enabled := d.enabled })

/-- C `find_target` (tack.c:3281): first *enabled* target whose name or id
matches the key. -/
def find_target (v : List Target) (name_or_id : String) : Option Target :=
  v.find? (fun t => t.enabled && (t.name = name_or_id || t.id = name_or_id))

/-! ### Declarative (INI) per-target configuration (tack.c:2607-2997) -/

/-- C `IniTargetCfg` (tack.c:2607): the accumulated keys of a
`[target "NAME"]` section.  `char*` fields are `Option String`;
`_set` flags accompany the booleans as in the source. -/
structure IniTargetCfg where
  name : String
  src_dir : Option String
  bin_base : Option String
  id : Option String
  enabled_set : Bool
  enabled : Bool
  remove_set : Bool
  remove : Bool
  core_set : Bool
  core : Bool
  includes : List String
  defines : List String
  cflags : List String
  ldflags : List String
  libs : List String
deriving Repr, DecidableEq

/-- A fresh section record as produced by `ini_get_or_add_target`
(tack.c:2733): everything cleared, `enabled` defaulting to 1. -/
def iniTargetNew (name : String) : IniTargetCfg :=
  { name := name, src_dir := none, bin_base := none, id := none,
    enabled_set := false, enabled := true, remove_set := false, remove := false,
    core_set := false, core := false,
    includes := [], defines := [], cflags := [], ldflags := [], libs := [] }

/-- The `TargetDef` that the loop body of `apply_ini_targets`
(tack.c:2948) builds from one section record. -/
def ini_targetdef (t : IniTargetCfg) : TargetDef :=
  if t.remove_set && t.remove then
    { name := some t.name, src_dir := none, bin_base := none, id := none,
      enabled := false, remove := true }
  else if t.src_dir = none && t.bin_base = none && t.id = none && t.enabled_set then
    { name := some t.name, src_dir := none, bin_base := none, id := none,
      enabled := t.enabled, remove := false }
  else
    { name := some t.name, src_dir := t.src_dir, bin_base := t.bin_base, id := t.id,
      enabled := if t.enabled_set then t.enabled else true, remove := false }

/-- C `apply_ini_targets` (tack.c:2948) restricted to its effect on the
target vector: a no-op unless a config file was loaded, otherwise apply the
`TargetDef` of every section in order.  (The `ini_materialize_overrides`
call at its head only touches the override table, modeled in the config
section below.) -/
def apply_ini_targets (loaded : Bool) (cfgs : List IniTargetCfg)
    (v : List Target) : List Target :=
  if !loaded then v
  else cfgs.foldl (fun acc t => tv_apply_targetdef acc (ini_targetdef t)) v

/-! ### INI text parsing (`ini_load_file`, tack.c:2804)

A file's text is modeled as the sequence of lines `fgets` returns, without
the trailing newline (exact for files whose lines are shorter than the
2048-byte line buffer). -/

/-- C `ltrim` (tack.c:2682). -/
def ltrimChars (l : List Char) : List Char := l.dropWhile isSpaceC

/-- C `rtrim_inplace` (tack.c:2683). -/
def rtrimChars (l : List Char) : List Char := (l.reverse.dropWhile isSpaceC).reverse

/-- C `trim` (tack.c:2687). -/
def trimChars (l : List Char) : List Char := rtrimChars (ltrimChars l)

/-- String form of `trim`. -/
def trim (s : String) : String := String.mk (trimChars s.toList)

/-- C `strieq` (tack.c:2689): case-insensitive equality via per-character
ASCII `tolower`. -/
def strieq (a b : String) : Bool :=
  a.toList.map Char.toLower == b.toList.map Char.toLower

/-- C `parse_bool` (tack.c:2699): `none` models "not recognized, output
untouched". -/
def parse_bool (v : String) : Option Bool :=
  if strieq v "1" || strieq v "yes" || strieq v "true" || strieq v "on" then some true
  else if strieq v "0" || strieq v "no" || strieq v "false" || strieq v "off" then some false
  else none

theorem length_dropWhile_le (p : α → Bool) : ∀ l : List α, (l.dropWhile p).length ≤ l.length := by
  intro l
  induction l with
  | nil => simp [List.dropWhile]
  | cons a t ih =>
    rw [List.dropWhile_cons]
    split
    · exact Nat.le_succ_of_le ih
    · simp

theorem sls_dec (l : List Char)
    (hp : l.dropWhile (fun c => c = ';' || isSpaceC c) ≠ []) :
    ((l.dropWhile (fun c => c = ';' || isSpaceC c)).dropWhile
      (fun c => c ≠ ';')).tail.length < l.length := by
  have hple : (l.dropWhile (fun c => c = ';' || isSpaceC c)).length ≤ l.length :=
    length_dropWhile_le _ l
  have hdrop : ((l.dropWhile (fun c => c = ';' || isSpaceC c)).dropWhile
      (fun c => c ≠ ';')).length < (l.dropWhile (fun c => c = ';' || isSpaceC c)).length := by
    cases hq : l.dropWhile (fun c => c = ';' || isSpaceC c) with
    | nil => exact absurd hq hp
    | cons a p2 =>
      have ha : (decide (a = ';') || isSpaceC a) = false := by
        have h1 := List.head?_dropWhile_not (fun c => c = ';' || isSpaceC c) l
        rw [hq] at h1
        simpa using h1
      have ha' : (decide (a ≠ ';')) = true := by
        rw [decide_not]
        simp only [Bool.or_eq_false_iff] at ha
        rw [ha.1]
        rfl
      rw [List.dropWhile_cons, if_pos ha']
      exact Nat.lt_succ_of_le (length_dropWhile_le _ p2)
  have htail := List.length_tail
    ((l.dropWhile (fun c => c = ';' || isSpaceC c)).dropWhile (fun c => c ≠ ';'))
  omega

/-- C `split_list_semicolon` (tack.c:2706): split on `;`, trimming each
piece (the 1024-byte copy buffer caps a piece at 1023 characters) and
dropping empty pieces.  In the source, after scanning a piece the cursor
stands on `;` or on the terminating NUL and is advanced past a `;`;
since the scan stops only at `;` or the end, this is exactly dropping the
head of the rest when there is one, i.e. `rest.tail`. -/
def split_list_semicolon (l : List Char) : List String :=
  let p := l.dropWhile (fun c => c = ';' || isSpaceC c)
  if hp : p = [] then []
  else
    let tokchars := p.takeWhile (fun c => c ≠ ';')
    let rest := p.dropWhile (fun c => c ≠ ';')
    let t := trim (String.mk (tokchars.take 1023))
    let tail := split_list_semicolon rest.tail
    if t ≠ "" then t :: tail else tail
  termination_by l.length
  decreasing_by
    exact sls_dec l hp

/-- C `TargetOverride` (tack.c:2367).  List pointers may be null
(`none`) or point to a NUL-terminated list. -/
structure TargetOverride where
  name : String
  includes : Option (List String)
  defines : Option (List String)
  cflags : Option (List String)
  ldflags : Option (List String)
  libs : Option (List String)
  use_core : Bool
deriving Repr, DecidableEq

/-- The process-wide configuration globals of tack.c: `g_ini_targets`,
`g_ini_overrides`, `g_config_default_target`, `g_config_disable_auto_tools`,
`g_config_loaded`, `g_config_path`. -/
structure GlobalState where
  ini_targets : List IniTargetCfg
  ini_overrides : List TargetOverride
  default_target : Option String
  disable_auto_tools : Bool
  loaded : Bool
  config_path : String
deriving Repr, DecidableEq

/-- The state at process start (all globals zeroed). -/
def initialState : GlobalState :=
  { ini_targets := [], ini_overrides := [], default_target := none,
    disable_auto_tools := false, loaded := false, config_path := "" }

/-- C `ini_get_or_add_target` (tack.c:2733), append half: ensure a record
for `name` exists (first match wins; records are unique by construction). -/
def iniTargetsGetOrAdd (ts : List IniTargetCfg) (name : String) : List IniTargetCfg :=
  if ts.any (fun t => t.name = name) then ts else ts ++ [iniTargetNew name]

/-- Mutation through the `cur_t` pointer: update the first record with the
given name. -/
def iniTargetsModify : List IniTargetCfg → String → (IniTargetCfg → IniTargetCfg) →
    List IniTargetCfg
  | [], _, _ => []
  | t :: rest, nm, f =>
    if t.name = nm then f t :: rest else t :: iniTargetsModify rest nm f

/-- The section state of the `ini_load_file` loop. -/
inductive IniSec where
  | SEC_NONE
  | SEC_PROJECT
  | SEC_TARGET
deriving Repr, DecidableEq

/-- One iteration of the `while (fgets(...))` loop of `ini_load_file`
(tack.c:2818-2917): process one line, threading the section state and the
current-target pointer (modeled by the target's name). -/
def ini_process_line (st : GlobalState) (sec : IniSec) (cur : Option String)
    (line : String) : GlobalState × IniSec × Option String :=
  let s := trimChars line.toList
  match s with
  | [] => (st, sec, cur)
  | c0 :: srest =>
    if c0 = ';' || c0 = '#' then (st, sec, cur)
    else if c0 = '[' then
      if !(c0 :: srest).contains ']' then (st, sec, cur)
      else
        let inner := trimChars (srest.takeWhile (fun c => c ≠ ']'))
        if strieq (String.mk inner) "project" then (st, IniSec.SEC_PROJECT, none)
        else if (inner.take 6).map Char.toLower = "target".toList then
          let p := trimChars (inner.drop 6)
          match p with
          | '\"' :: prest =>
            if !prest.contains '\"' then (st, IniSec.SEC_NONE, none)
            else
              let nm := String.mk ((prest.takeWhile (fun c => c ≠ '\"')).take 511)
              if nm ≠ "" then
                ({ st with ini_targets := iniTargetsGetOrAdd st.ini_targets nm },
                 IniSec.SEC_TARGET, some nm)
              else (st, IniSec.SEC_NONE, none)
          | _ =>
            let nm := String.mk (rtrimChars (p.take 511))
            if nm ≠ "" then
              ({ st with ini_targets := iniTargetsGetOrAdd st.ini_targets nm },
               IniSec.SEC_TARGET, some nm)
            else (st, IniSec.SEC_NONE, none)
        else (st, IniSec.SEC_NONE, none)
    else if !(c0 :: srest).contains '=' then (st, sec, cur)
    else
      let key := String.mk (trimChars ((c0 :: srest).takeWhile (fun c => c ≠ '=')))
      let val := String.mk (trimChars (((c0 :: srest).dropWhile (fun c => c ≠ '=')).tail))
      match sec with
      | IniSec.SEC_PROJECT =>
        if strieq key "default_target" then
          ({ st with default_target := some val }, sec, cur)
        else if strieq key "disable_auto_tools" then
          match parse_bool val with
          | some b => ({ st with disable_auto_tools := b }, sec, cur)
          | none => (st, sec, cur)
        else (st, sec, cur)
      | IniSec.SEC_TARGET =>
        match cur with
        | none => (st, sec, cur)
        | some nm =>
          let upd (f : IniTargetCfg → IniTargetCfg) : GlobalState :=
            { st with ini_targets := iniTargetsModify st.ini_targets nm f }
          if strieq key "src" then (upd (fun t => { t with src_dir := some val }), sec, cur)
          else if strieq key "bin" then (upd (fun t => { t with bin_base := some val }), sec, cur)
          else if strieq key "id" then (upd (fun t => { t with id := some val }), sec, cur)
          else if strieq key "enabled" then
            match parse_bool val with
            | some b => (upd (fun t => { t with enabled_set := true, enabled := b }), sec, cur)
            | none => (st, sec, cur)
          else if strieq key "remove" then
            match parse_bool val with
            | some b => (upd (fun t => { t with remove_set := true, remove := b }), sec, cur)
            | none => (st, sec, cur)
          else if strieq key "core" then
            match parse_bool val with
            | some b => (upd (fun t => { t with core_set := true, core := b }), sec, cur)
            | none => (st, sec, cur)
          else if strieq key "includes" then
            (upd (fun t => { t with includes := split_list_semicolon val.toList }), sec, cur)
          else if strieq key "defines" then
            (upd (fun t => { t with defines := split_list_semicolon val.toList }), sec, cur)
          else if strieq key "cflags" then
            (upd (fun t => { t with cflags := split_list_semicolon val.toList }), sec, cur)
          else if strieq key "ldflags" then
            (upd (fun t => { t with ldflags := split_list_semicolon val.toList }), sec, cur)
          else if strieq key "libs" then
            (upd (fun t => { t with libs := split_list_semicolon val.toList }), sec, cur)
          else (st, sec, cur)
      | IniSec.SEC_NONE => (st, sec, cur)

/-- C `ini_load_file` (tack.c:2804).  The file's content is
`none` when `fopen` fails (the function then returns 1 and the state is
untouched).  On a successful open the function FIRST re-initializes the
process-wide target and override vectors (`ini_targets_init();
ini_overrides_init();`, tack.c:2815-2816) and then parses the lines. -/
def ini_load_file (content : Option (List String)) (st : GlobalState) :
    Bool × GlobalState :=
  match content with
  | none => (true, st)
  | some lines =>
    let st0 := { st with ini_targets := [], ini_overrides := [] }
    let fin := lines.foldl
      (fun (acc : GlobalState × IniSec × Option String) line =>
        ini_process_line acc.1 acc.2.1 acc.2.2 line)
      (st0, IniSec.SEC_NONE, none)
    (false, fin.1)

/-- C `ini_get_or_add_override` (tack.c:2770), append half. -/
def ovGetOrAdd (ovs : List TargetOverride) (name : String) : List TargetOverride :=
  if ovs.any (fun o => o.name = name) then ovs
  else ovs ++ [{ name := name, includes := none, defines := none, cflags := none,
                 ldflags := none, libs := none, use_core := false }]

/-- Mutation through the returned override pointer: update the first
record with the given name. -/
def ovModify : List TargetOverride → String → (TargetOverride → TargetOverride) →
    List TargetOverride
  | [], _, _ => []
  | o :: rest, nm, f =>
    if o.name = nm then f o :: rest else o :: ovModify rest nm f

/-- C `ini_materialize_overrides` (tack.c:2924): for every section record
with at least one override key, create-or-update the override record; the
C `sv_to_strlist_own` transfer empties the section record's lists. -/
def ini_materialize_overrides (st : GlobalState) : GlobalState :=
  let step := fun (acc : List TargetOverride × List IniTargetCfg) (t : IniTargetCfg) =>
    let need := !t.includes.isEmpty || !t.defines.isEmpty || !t.cflags.isEmpty ||
                !t.ldflags.isEmpty || !t.libs.isEmpty || t.core_set
    if need then
      let ovs := ovGetOrAdd acc.1 t.name
      let ovs := ovModify ovs t.name (fun ov =>
        { ov with
          includes := if !t.includes.isEmpty then some t.includes else ov.includes
          defines := if !t.defines.isEmpty then some t.defines else ov.defines
          cflags := if !t.cflags.isEmpty then some t.cflags else ov.cflags
          ldflags := if !t.ldflags.isEmpty then some t.ldflags else ov.ldflags
          libs := if !t.libs.isEmpty then some t.libs else ov.libs
          use_core := if t.core_set then t.core else ov.use_core })
      (ovs, acc.2 ++ [{ t with includes := [], defines := [], cflags := [], ldflags := [], libs := [] }])
    else (acc.1, acc.2 ++ [t])
  let fin := st.ini_targets.foldl step (st.ini_overrides, [])
  { st with ini_overrides := fin.1, ini_targets := fin.2 }

/-! ### Configuration auto-load and the tackfile bootstrap
(tack.c:3147-3269, main at tack.c:4099) -/

/-- The environment `config_auto_load` observes: command-line flags, the
relevant files, their mtimes and contents, and the outcomes of the external
generator steps (writing `tackfile_gen.c`, compiling it, running it). -/
structure Env where
  no_config : Bool
  tackfile_exists : Bool
  tackfile_mtime : Nat
  gen_ini_mtime : Option Nat
  write_gen_ok : Bool
  compile_ok : Bool
  run_ok : Bool
  gen_ini_content : Option (List String)
  cli_config : Option String
  tack_ini_exists : Bool
  file_content : String → Option (List String)

/-- The cache test of `tackfile_prepare_generated_ini` (tack.c:3167):
the generated INI exists and its mtime is `>=` the mtime of `tackfile.c`. -/
def genIniCacheFresh (e : Env) : Bool :=
  match e.gen_ini_mtime with
  | some m => decide (m ≥ e.tackfile_mtime)
  | none => false

/-- Result of `tackfile_prepare_generated_ini`: whether it failed, and
whether it reached the regeneration steps (rewrite, recompile, rerun). -/
structure PrepResult where
  err : Bool
  regen_attempted : Bool
deriving Repr, DecidableEq

/-- C `tackfile_prepare_generated_ini` (tack.c:3147). -/
def tackfile_prepare_generated_ini (e : Env) : PrepResult :=
  if !e.tackfile_exists then { err := false, regen_attempted := false }
  else if genIniCacheFresh e then { err := false, regen_attempted := false }
  else if !e.write_gen_ok then { err := true, regen_attempted := true }
  else if !e.compile_ok then { err := true, regen_attempted := true }
  else if !e.run_ok then { err := true, regen_attempted := true }
  else { err := false, regen_attempted := true }

/-- The fixed path of the generated INI
(`build/_tackfile/tackfile.generated.ini`, tack.c:3020). -/
def genIniPath : String := "build/_tackfile/tackfile.generated.ini"

/-- C `config_reset` (tack.c:3218). -/
def config_reset (st : GlobalState) : GlobalState :=
  { st with default_target := none, disable_auto_tools := false,
            ini_targets := [], ini_overrides := [],
            loaded := false, config_path := "" }

/-- C `config_add_ini_layer` (tack.c:3233). -/
def config_add_ini_layer (content : Option (List String)) (path : String)
    (st : GlobalState) : Bool × GlobalState :=
  if path = "" then (false, st)
  else
    match ini_load_file content st with
    | (true, st') => (true, st')
    | (false, st') => (false, { st' with loaded := true, config_path := path })

/-- Result of `config_auto_load`: error flag, whether the tackfile
generator regeneration was attempted, final globals. -/
structure LoadResult where
  err : Bool
  gen_attempted : Bool
  st : GlobalState

/-- The high-priority layer of `config_auto_load` (tack.c:3259-3268):
explicit `--config` path, else `tack.ini` when present, then
`ini_materialize_overrides`. -/
def config_load_high_layer (e : Env) (ga : Bool) (st : GlobalState) : LoadResult :=
  match e.cli_config with
  | some p =>
    match config_add_ini_layer (e.file_content p) p st with
    | (true, st') => { err := true, gen_attempted := ga, st := st' }
    | (false, st') => { err := false, gen_attempted := ga, st := ini_materialize_overrides st' }
  | none =>
    if e.tack_ini_exists then
      match config_add_ini_layer (e.file_content "tack.ini") "tack.ini" st with
      | (true, st') => { err := true, gen_attempted := ga, st := st' }
      | (false, st') => { err := false, gen_attempted := ga, st := ini_materialize_overrides st' }
    else { err := false, gen_attempted := ga, st := ini_materialize_overrides st }

/-- C `config_auto_load` (tack.c:3244). -/
def config_auto_load (e : Env) (st : GlobalState) : LoadResult :=
  if e.no_config then { err := false, gen_attempted := false, st := st }
  else
    let st := config_reset st
    if e.tackfile_exists then
      let pr := tackfile_prepare_generated_ini e
      if pr.err then { err := true, gen_attempted := pr.regen_attempted, st := st }
      else
        match config_add_ini_layer e.gen_ini_content genIniPath st with
        | (true, st') => { err := true, gen_attempted := pr.regen_attempted, st := st' }
        | (false, st') => config_load_high_layer e pr.regen_attempted st'
    else config_load_high_layer e false st

/-- The configuration step of `main` (tack.c:4099-4104): a failed
`config_auto_load` makes the whole invocation return exit code 2, before
target discovery and before any build. -/
def main_config_phase (e : Env) : Except Nat GlobalState :=
  let r := config_auto_load e initialState
  if r.err then Except.error 2 else Except.ok r.st

/-! ### Compile scheduler (`compile_sources`, tack.c:3422)

Only the process events matter for the scheduling claims: each source is
abstracted to whether `obj_needs_rebuild` admitted it, whether
`proc_spawn_nowait` succeeded, and the exit code `proc_wait` will deliver.
The scheduler's observable behavior is the sequence of spawn/wait events. -/

/-- A process event: `spawn i` is `proc_spawn_nowait` succeeding for job
`i`, `reap i` is `proc_wait` on job `i`'s process. -/
inductive Ev where
  | spawn (i : Nat)
  | reap (i : Nat)
deriving Repr, DecidableEq

/-- Abstraction of one source in the `compile_sources` loop. -/
structure Job where
  needs : Bool
  spawn_ok : Bool
  exit_code : Nat
deriving Repr, DecidableEq

/-- The final `for (k = 0; k < running_n; k++) proc_wait(...)` loop
(tack.c:3534-3540): wait on every still-tracked process in order,
returning failure at the first non-zero exit. -/
def cs_drain : List (Nat × Nat) → List Ev → List Ev × Bool
  | [], tr => (tr, true)
  | (i, c) :: rest, tr =>
    if c ≠ 0 then (tr ++ [Ev.reap i], false)
    else cs_drain rest (tr ++ [Ev.reap i])

/-- The parallel (`jobs > 1`) branch of the `compile_sources` loop
(tack.c:3438-3532): the window `running` holds the spawned-but-not-waited
processes, oldest first; when it is full the oldest is waited before the
new job is spawned.  (The `running = []` full-window case is unreachable
for `jobs ≥ 1`.) -/
def cs_loop (jobs : Nat) : List (Nat × Job) → List (Nat × Nat) → List Ev → List Ev × Bool
  | [], running, tr => cs_drain running tr
  | (i, j) :: rest, running, tr =>
    if !j.needs then cs_loop jobs rest running tr
    else if running.length ≥ jobs then
      match running with
      | [] =>
        if !j.spawn_ok then (tr, false)
        else cs_loop jobs rest [(i, j.exit_code)] (tr ++ [Ev.spawn i])
      | (oid, ocode) :: rtail =>
        if ocode ≠ 0 then (tr ++ [Ev.reap oid], false)
        else if !j.spawn_ok then (tr ++ [Ev.reap oid], false)
        else cs_loop jobs rest (rtail ++ [(i, j.exit_code)]) (tr ++ [Ev.reap oid, Ev.spawn i])
    else
      if !j.spawn_ok then (tr, false)
      else cs_loop jobs rest (running ++ [(i, j.exit_code)]) (tr ++ [Ev.spawn i])

/-- The single-job (`jobs == 1`) branch: `run_argv_wait` per admitted job
(tack.c:3513-3517). -/
def cs_sync : List (Nat × Job) → List Ev → List Ev × Bool
  | [], tr => (tr, true)
  | (i, j) :: rest, tr =>
    if !j.needs then cs_sync rest tr
    else if !j.spawn_ok then (tr, false)
    else if j.exit_code ≠ 0 then (tr ++ [Ev.spawn i, Ev.reap i], false)
    else cs_sync rest (tr ++ [Ev.spawn i, Ev.reap i])

/-- The scheduling behavior of C `compile_sources` (tack.c:3422):
`if (jobs < 1) jobs = 1;`, then the synchronous or the windowed loop. -/
def compile_sources_sched (jobs : Nat) (js : List Job) : List Ev × Bool :=
  let jobs := if jobs < 1 then 1 else jobs
  if jobs = 1 then cs_sync js.enum []
  else cs_loop jobs js.enum [] []

/-- Jobs spawned in a trace, in order. -/
def spawnIds : List Ev → List Nat
  | [] => []
  | Ev.spawn i :: r => i :: spawnIds r
  | Ev.reap _ :: r => spawnIds r

/-- Jobs waited in a trace, in order. -/
def reapIds : List Ev → List Nat
  | [] => []
  | Ev.spawn _ :: r => reapIds r
  | Ev.reap i :: r => i :: reapIds r

/-- Checks that, starting from `k` in-flight processes, the number of
spawned-but-not-yet-waited processes never exceeds `jobs` at any point of
the trace. -/
def windowOK (jobs : Nat) : List Ev → Nat → Bool
  | [], _ => true
  | Ev.spawn _ :: r, k => decide (k + 1 ≤ jobs) && windowOK jobs r (k + 1)
  | Ev.reap _ :: r, k => windowOK jobs r (k - 1)

/-! ### Link decision (`build_one_target`, tack.c:3766-3801) -/

/-- The `need_link` computation of `build_one_target` (tack.c:3777-3784):
the contributing objects are the target's objects followed by the core
objects; relink when forced, when the binary is missing, or when some
contributing object is missing or newer than the binary. -/
def need_link (fs : FS) (force : Bool) (out_exe : String)
    (objs core_objs : List String) : Bool :=
  let all := objs ++ core_objs
  if force || !file_exists fs out_exe then true
  else
    let exe_t := file_mtime fs out_exe
    all.any (fun o => file_mtime fs o < 0 || file_mtime fs o > exe_t)

/-! ## Helper lemmas -/

theorem mtime_neg_iff (fs : FS) (p : String) : file_mtime fs p < 0 ↔ fs p = none := by
  unfold file_mtime
  cases fs p with
  | none => simp
  | some t => simp [Int.ofNat_nonneg t, not_lt.mpr (Int.ofNat_nonneg t)]

theorem mtime_nonneg_of_isSome (fs : FS) (p : String) (h : (fs p).isSome) :
    0 ≤ file_mtime fs p := by
  unfold file_mtime
  cases hp : fs p with
  | none => rw [hp] at h; simp at h
  | some t => exact Int.ofNat_nonneg t

/-- The early-return parse-and-check loop computes exactly "some collected
dependency token is missing or newer". -/
theorem depLoop_eq_any (fs : FS) (ot : Int) : ∀ (l tok : List Char) (seen : Bool),
    depLoop fs ot l tok seen = (depTokens l tok seen).any (fun t => depBad fs ot t) := by
  intro l tok seen
  induction l, tok, seen using depLoop.induct fs ot with
  | case1 tok seen =>
    rw [depLoop.eq_def, depTokens.eq_def]
    by_cases h : (decide (tok.length > 0) && seen) = true <;> simp [depFinal, h]
  | case2 tok seen =>
    rw [depLoop.eq_def, depTokens.eq_def]
    by_cases h : (decide (tok.length > 0) && seen) = true <;> simp [depFinal, h]
  | case3 tok seen n rest' hn ih =>
    rw [depLoop.eq_def, depTokens.eq_def]
    simp [hn, ih]
  | case4 tok seen n rest' hn ih =>
    rw [depLoop.eq_def, depTokens.eq_def]
    simp [hn, ih]
  | case5 c rest tok seen hc hcol ih =>
    rw [depLoop.eq_def, depTokens.eq_def]
    simp [hc, hcol, ih]
  | case6 c rest tok hc hsp hlen hbad hcol =>
    rw [depLoop.eq_def, depTokens.eq_def]
    simp [hc, hsp, hlen, hbad, hcol]
  | case7 c rest tok hc hsp hlen hbad hcol ih =>
    rw [depLoop.eq_def, depTokens.eq_def]
    simp [hc, hsp, hlen, hbad, hcol, ih]
  | case8 c rest tok seen hc hcol hsp hlen hseen ih =>
    rw [Bool.not_eq_true] at hseen
    subst hseen
    have hc2 : ¬c = ':' := by simpa using hcol
    rw [depLoop.eq_def, depTokens.eq_def]
    simp [hc, hc2, hsp, hlen, ih]
  | case9 c rest tok seen hc hcol hsp hlen ih =>
    rw [depLoop.eq_def, depTokens.eq_def]
    simp [hc, hcol, hsp, hlen, ih]
  | case10 c rest tok seen hc hcol hsp ih =>
    rw [depLoop.eq_def, depTokens.eq_def]
    simp [hc, hcol, hsp, ih]

/-! ## Claim theorems -/

/-- C1: for every call of `obj_needs_rebuild(object, source, depfile, force)`
(on a source that exists — the sources fed to it come from the directory
scan): it returns true when `force` is set; otherwise true when the object
does not exist; otherwise true when the source is newer than the object;
otherwise, when a dependency file exists, true iff some listed dependency
is missing or newer than the object; and true when no dependency file
exists. -/
theorem obj_needs_rebuild_spec (fs : FS) (depc : String → Option (List Char))
    (obj src dep : String) (force : Bool) (hsrc : (fs src).isSome) :
    obj_needs_rebuild fs depc obj src dep force = true ↔
      (force = true ∨ fs obj = none ∨
       file_mtime fs src > file_mtime fs obj ∨
       depc dep = none ∨
       ∃ content, depc dep = some content ∧
         ∃ t ∈ depTokens content [] false,
           fs (String.mk t) = none ∨
           file_mtime fs (String.mk t) > file_mtime fs obj) := by
  cases force with
  | true => simp [obj_needs_rebuild]
  | false =>
    by_cases hobj : fs obj = none
    · have hlt : file_mtime fs obj < 0 := (mtime_neg_iff fs obj).mpr hobj
      simp [obj_needs_rebuild, hlt, hobj]
    · have hobjge : 0 ≤ file_mtime fs obj := by
        apply mtime_nonneg_of_isSome
        cases h : fs obj with
        | none => exact absurd h hobj
        | some t => simp
      have hnl1 : ¬file_mtime fs obj < 0 := not_lt.mpr hobjge
      have hsrcge : 0 ≤ file_mtime fs src := mtime_nonneg_of_isSome fs src hsrc
      have hnl2 : ¬file_mtime fs src < 0 := not_lt.mpr hsrcge
      by_cases hgt : file_mtime fs src > file_mtime fs obj
      · simp [obj_needs_rebuild, hnl1, hnl2, hgt, hobj]
      · cases hdc : depc dep with
        | none => simp [obj_needs_rebuild, depfile_needs_rebuild, hnl1, hnl2, hgt, hobj, hdc]
        | some content =>
          simp only [obj_needs_rebuild, depfile_needs_rebuild, if_neg hnl1, if_neg hnl2,
            if_neg hgt, Bool.false_eq_true, if_false, hdc]
          rw [depLoop_eq_any]
          simp [List.any_eq_true, depBad, mtime_neg_iff, hobj, hgt, hdc,
            Bool.or_eq_true, decide_eq_true_eq]

/-- Filesystem oracle used by the claim witnesses: an object from
`main.c`, a header `util.h` newer than the object. -/
def fsW : FS := fun p =>
  if p = "obj.o" then some 10
  else if p = "main.c" then some 5
  else if p = "util.h" then some 20
  else none

/-- Depfile-content oracle used by the claim witnesses. -/
def depcW : String → Option (List Char) := fun p =>
  if p = "obj.d" then some ("obj.o: main.c util.h".toList) else none

theorem obj_needs_rebuild_spec_witness :
    ((fsW "main.c").isSome = true) ∧
    (obj_needs_rebuild fsW depcW "obj.o" "main.c" "obj.d" false = true ↔
      (false = true ∨ fsW "obj.o" = none ∨
       file_mtime fsW "main.c" > file_mtime fsW "obj.o" ∨
       depcW "obj.d" = none ∨
       ∃ content, depcW "obj.d" = some content ∧
         ∃ t ∈ depTokens content [] false,
           fsW (String.mk t) = none ∨
           file_mtime fsW (String.mk t) > file_mtime fsW "obj.o")) :=
  ⟨by decide, obj_needs_rebuild_spec fsW depcW "obj.o" "main.c" "obj.d" false (by decide)⟩

/-- C7: the depfile grammar.  Conjuncts, in order: a backslash followed by
a newline (or carriage return) is a line continuation that is ignored and
is not a token boundary; a backslash followed by any other character puts
that character literally into the current token (spaces included); the
first unescaped colon ends the target token and switches into dependency
mode; whitespace delimits tokens; and the parse result is exactly "some
token collected after the colon is missing or newer than the object", so
precisely the tokens after the colon are timestamp-checked. -/
theorem depfile_grammar :
    (∀ (fs : FS) (ot : Int) (rest tok : List Char) (seen : Bool),
       depLoop fs ot ('\\' :: '\n' :: rest) tok seen = depLoop fs ot rest tok seen ∧
       depLoop fs ot ('\\' :: '\r' :: rest) tok seen = depLoop fs ot rest tok seen) ∧
    (∀ (fs : FS) (ot : Int) (c : Char) (rest tok : List Char) (seen : Bool),
       ¬(c = '\n' ∨ c = '\r') →
       depLoop fs ot ('\\' :: c :: rest) tok seen = depLoop fs ot rest (depPush tok c) seen) ∧
    (∀ (fs : FS) (ot : Int) (rest tok : List Char),
       depLoop fs ot (':' :: rest) tok false = depLoop fs ot rest [] true) ∧
    (∀ (c : Char) (rest tok : List Char), isSpaceC c = true → tok ≠ [] →
       depTokens (c :: rest) tok true = tok :: depTokens rest [] true) ∧
    (∀ (fs : FS) (ot : Int) (content : List Char),
       depLoop fs ot content [] false =
         (depTokens content [] false).any (fun t => depBad fs ot t)) := by
  refine ⟨?_, ?_, ?_, ?_, ?_⟩
  · intro fs ot rest tok seen
    constructor <;> (rw [depLoop.eq_def]; simp)
  · intro fs ot c rest tok seen hc
    rw [not_or] at hc
    rw [depLoop.eq_def]
    simp [hc.1, hc.2]
  · intro fs ot rest tok
    rw [depLoop.eq_def]
    simp
  · intro c rest tok hsp htok
    have hc : ¬c = '\\' := by
      intro h
      subst h
      simp [isSpaceC] at hsp
    have hlen : tok.length > 0 := List.length_pos.mpr htok
    rw [depTokens.eq_def]
    simp [hc, hsp, hlen]
  · intro fs ot content
    exact depLoop_eq_any fs ot content [] false

theorem depfile_grammar_witness :
    (¬('x' = '\n' ∨ 'x' = '\r')) ∧
    depLoop fsW 10 ('\\' :: 'x' :: [' ']) ['a'] true =
      depLoop fsW 10 [' '] (depPush ['a'] 'x') true ∧
    (isSpaceC ' ' = true) ∧ ((['a'] : List Char) ≠ []) ∧
    depTokens (' ' :: []) ['a'] true = ['a'] :: depTokens [] [] true :=
  ⟨by decide, depfile_grammar.2.1 fsW 10 'x' [' '] ['a'] true (by decide),
   by decide, by decide, depfile_grammar.2.2.2.1 ' ' [] ['a'] (by decide) (by decide)⟩

theorem tv_modify_at_getElem? (v : List Target) (i j : Nat) (f : Target → Target) :
    (tv_modify_at v i f)[j]? = if j = i then (v[i]?).map f else v[j]? := by
  induction v generalizing i j with
  | nil => simp [tv_modify_at]
  | cons t rest ih =>
    cases i with
    | zero =>
      cases j with
      | zero => simp [tv_modify_at]
      | succ j => simp [tv_modify_at]
    | succ i =>
      cases j with
      | zero => simp [tv_modify_at]
      | succ j => simp [tv_modify_at, ih]

/-- C3: applying a `TargetDef` with `src_dir = bin_base = id = ∅`,
`enabled = false` (and no remove action) touches, at most, the enabled
flag of the target with the matching name: slot `j` of the vector is
unchanged unless `j` is the matched index, where only `enabled` flips to
`false`; and when no target with that name exists the vector is completely
unchanged. -/
theorem tv_apply_action_only_frame (v : List Target) (d : TargetDef) (nm : String)
    (hname : d.name = some nm) (hsrc : d.src_dir = none) (hbin : d.bin_base = none)
    (hid : d.id = none) (hen : d.enabled = false) (hrm : d.remove = false) :
    (∀ j : Nat, (tv_apply_targetdef v d)[j]? =
       if tv_find_index_by_name v nm = some j then
         (v[j]?).map (fun t => { t with enabled := false })
       else v[j]?) ∧
    (tv_find_index_by_name v nm = none → tv_apply_targetdef v d = v) := by
  have happ : tv_apply_targetdef v d =
      match tv_find_index_by_name v nm with
      | some i => tv_modify_at v i (fun t => { t with enabled := false })
      | none => v := by
    unfold tv_apply_targetdef
    rw [hname]
    simp [hrm, hsrc, hbin, hid, hen]
  constructor
  · intro j
    rw [happ]
    cases hidx : tv_find_index_by_name v nm with
    | none => simp
    | some i =>
      rw [tv_modify_at_getElem?]
      by_cases hji : j = i
      · subst hji
        simp
      · have h1 : ¬(some i = some j) := by
          intro h
          injection h with h2
          exact hji h2.symm
        rw [if_neg hji, if_neg h1]
  · intro hnone
    rw [happ, hnone]

/-- Vector and action def for the `C3` witness. -/
def v3W : List Target :=
  [{ name := "app", id := "app", src_dir := "src", bin_base := "app", enabled := true }]

def d3W : TargetDef :=
  { name := some "app", src_dir := none, bin_base := none, id := none,
    enabled := false, remove := false }

theorem tv_apply_action_only_frame_witness :
    ((tv_apply_targetdef v3W d3W)[0]? =
      if tv_find_index_by_name v3W "app" = some 0 then
        (v3W[0]?).map (fun t => { t with enabled := false })
      else v3W[0]?) ∧
    (tv_find_index_by_name [] "app" = none → tv_apply_targetdef [] d3W = []) :=
  ⟨(tv_apply_action_only_frame v3W d3W "app" rfl rfl rfl rfl rfl rfl).1 0,
   (tv_apply_action_only_frame [] d3W "app" rfl rfl rfl rfl rfl rfl).2⟩

/-- The discovered vector used in the `C4` scenario: the `app` target plus
an auto-discovered `tool:old`. -/
def discW : List Target := tv_push (tv_push [] "app" "src" "app") "tool:old" "tools/old" "old"

/-- The action `TargetDef` that a declarative `[target "tool:old"]` section
with `enabled = no` produces. -/
def disableOldW : TargetDef :=
  ini_targetdef { iniTargetNew "tool:old" with enabled_set := true, enabled := false }

/-- C4: target lookup only ever returns enabled targets; in particular,
after the declarative layer disables discovered target `tool:old`, lookup
by its name fails even though discovery created the target. -/
theorem find_target_only_enabled :
    (∀ (v : List Target) (key : String) (t : Target),
       find_target v key = some t → t.enabled = true) ∧
    (find_target (tv_apply_targetdef discW disableOldW) "tool:old" = none) := by
  constructor
  · intro v key t h
    have hp := List.find?_some h
    simp only [Bool.and_eq_true] at hp
    exact hp.1
  · decide

def appTW : Target :=
  { name := "app", id := "app", src_dir := "src", bin_base := "app", enabled := true }

theorem find_target_only_enabled_witness :
    (find_target discW "app" = some appTW) ∧ appTW.enabled = true :=
  ⟨by decide, find_target_only_enabled.1 discW "app" appTW (by decide)⟩

/-- C10: a declarative `[target]` section carrying an upsert key but no
`enabled` key, applied to an existing target, rewrites the upserted fields
and sets the target's enabled flag to `true` — re-enabling it even if it
was disabled before. -/
theorem apply_ini_upsert_reenables (v : List Target) (t : IniTargetCfg) (i : Nat)
    (tgt : Target)
    (hen : t.enabled_set = false) (hrm : t.remove_set = false)
    (hup : ¬(t.src_dir = none ∧ t.bin_base = none ∧ t.id = none))
    (hidx : tv_find_index_by_name v t.name = some i)
    (hget : v[i]? = some tgt) :
    (apply_ini_targets true [t] v)[i]? =
      some { tgt with
             src_dir := t.src_dir.getD tgt.src_dir
             bin_base := t.bin_base.getD tgt.bin_base
             id := t.id.getD tgt.id
             enabled := true } := by
  have h1 : apply_ini_targets true [t] v = tv_apply_targetdef v (ini_targetdef t) := by
    simp [apply_ini_targets]
  have h2 : ini_targetdef t =
      { name := some t.name, src_dir := t.src_dir, bin_base := t.bin_base,
        id := t.id, enabled := true, remove := false } := by
    unfold ini_targetdef
    rw [hrm]
    simp [hen]
  have hbool : ¬(t.src_dir = none && t.bin_base = none && t.id = none) = true := by
    simp only [Bool.and_eq_true, decide_eq_true_eq]
    exact fun h => hup ⟨h.1.1, h.1.2, h.2⟩
  rw [h1, h2]
  unfold tv_apply_targetdef
  simp only [Bool.false_eq_true, if_false, hbool, hidx]
  unfold tv_update_at_fields
  rw [tv_modify_at_getElem?, if_pos rfl, tv_modify_at_getElem?, if_pos rfl, hget]
  rfl

/-- Vector and section record for the `C10` witness: the target exists but
is disabled; the section has `src` and no `enabled`. -/
def v10W : List Target :=
  [{ name := "app", id := "app", src_dir := "src", bin_base := "app", enabled := false }]

def t10W : IniTargetCfg := { iniTargetNew "app" with src_dir := some "src/app" }

theorem apply_ini_upsert_reenables_witness :
    (apply_ini_targets true [t10W] v10W)[0]? =
      some { name := "app", id := "app", src_dir := "src/app", bin_base := "app",
             enabled := true } :=
  apply_ini_upsert_reenables v10W t10W 0
    { name := "app", id := "app", src_dir := "src", bin_base := "app", enabled := false }
    rfl rfl (by decide) (by decide) (by decide)

/-- C6: the linker is invoked iff the force flag is set, or the output
binary does not exist, or some contributing object (target objects
followed by core objects) is newer than the existing binary.  The
hypothesis says every contributing object exists, which holds whenever the
link decision is reached: `compile_sources` succeeded, so every object was
either found up to date or just produced. -/
theorem need_link_spec (fs : FS) (force : Bool) (out_exe : String)
    (objs core_objs : List String)
    (hobjs : ∀ o ∈ objs ++ core_objs, (fs o).isSome) :
    need_link fs force out_exe objs core_objs = true ↔
      (force = true ∨ fs out_exe = none ∨
       ∃ o ∈ objs ++ core_objs,
         file_mtime fs o > file_mtime fs out_exe) := by
  cases force with
  | true => simp [need_link]
  | false =>
    by_cases hexe : fs out_exe = none
    · simp [need_link, file_exists, hexe]
    · have hex : (fs out_exe).isSome := Option.ne_none_iff_isSome.mp hexe
      simp only [need_link, file_exists, hex, Bool.not_true, Bool.or_false,
        Bool.false_eq_true, if_false, List.any_eq_true, Bool.or_eq_true,
        decide_eq_true_eq, hexe, false_or]
      constructor
      · rintro ⟨o, ho, hbad | hgt⟩
        · have : (fs o).isSome := hobjs o ho
          rw [mtime_neg_iff] at hbad
          rw [hbad] at this
          simp at this
        · exact ⟨o, ho, hgt⟩
      · rintro ⟨o, ho, hgt⟩
        exact ⟨o, ho, Or.inr hgt⟩

theorem need_link_spec_witness :
    (∀ o ∈ ["obj.o"] ++ [], (fsW o).isSome) ∧
    (need_link fsW false "bin/app" ["obj.o"] [] = true ↔
      (false = true ∨ fsW "bin/app" = none ∨
       ∃ o ∈ ["obj.o"] ++ [],
         file_mtime fsW o > file_mtime fsW "bin/app")) :=
  ⟨by decide, need_link_spec fsW false "bin/app" ["obj.o"] [] (by decide)⟩

/-- Environment for the `C9` counterexample: the cached generated INI has
exactly the same mtime as `tackfile.c` — it exists but is not strictly
newer. -/
def envEqW : Env :=
  { no_config := false, tackfile_exists := true, tackfile_mtime := 5,
    gen_ini_mtime := some 5, write_gen_ok := true, compile_ok := true,
    run_ok := true, gen_ini_content := some [], cli_config := none,
    tack_ini_exists := false, file_content := fun _ => none }

/-- C9 counterexample: the claim says regeneration is performed unless the
cached output is (strictly) newer than `tackfile.c`.  With equal mtimes
the cached output is not newer, yet the code skips regeneration
(`file_mtime(gen_ini) >= tf_t`, tack.c:3167). -/
theorem tackfile_regen_counterexample :
    envEqW.tackfile_exists = true ∧
    envEqW.gen_ini_mtime = some 5 ∧ envEqW.tackfile_mtime = 5 ∧ ¬(5 > 5) ∧
    (tackfile_prepare_generated_ini envEqW).regen_attempted = false := by
  refine ⟨rfl, rfl, rfl, by decide, by decide⟩

/-- C9 amended: when `tackfile.c` is present, regeneration of the
generated declarative document is skipped iff the cached output exists and
its mtime is greater than **or equal to** the mtime of `tackfile.c`, and
is performed otherwise. -/
theorem tackfile_regen_cache (e : Env) (h : e.tackfile_exists = true) :
    (tackfile_prepare_generated_ini e).regen_attempted = false ↔
      (∃ m, e.gen_ini_mtime = some m ∧ e.tackfile_mtime ≤ m) := by
  unfold tackfile_prepare_generated_ini genIniCacheFresh
  rw [h]
  cases hm : e.gen_ini_mtime with
  | none =>
    simp only [Bool.not_true, Bool.false_eq_true, if_false]
    constructor
    · intro hfalse
      by_cases hw : e.write_gen_ok <;> by_cases hc : e.compile_ok <;>
        by_cases hr : e.run_ok <;> simp [hw, hc, hr] at hfalse
    · rintro ⟨m, hm2, _⟩
      exact absurd hm2 (by simp)
  | some m =>
    by_cases hge : e.tackfile_mtime ≤ m
    · simp [hge]
    · simp only [Bool.not_true, Bool.false_eq_true, if_false, ge_iff_le, hge,
        decide_eq_true_eq, if_neg hge]
      constructor
      · intro hfalse
        by_cases hw : e.write_gen_ok <;> by_cases hc : e.compile_ok <;>
          by_cases hr : e.run_ok <;> simp [hw, hc, hr] at hfalse
      · rintro ⟨m2, hm2, hle⟩
        injection hm2 with hmm
        subst hmm
        exact absurd hle hge

/-- Environment for the `C9` witness: cache fresh (newer), regeneration
skipped. -/
def envFreshW : Env :=
  { envEqW with gen_ini_mtime := some 9 }

theorem tackfile_regen_cache_witness :
    envFreshW.tackfile_exists = true ∧
    ((tackfile_prepare_generated_ini envFreshW).regen_attempted = false ↔
      (∃ m, envFreshW.gen_ini_mtime = some m ∧ envFreshW.tackfile_mtime ≤ m)) :=
  ⟨rfl, tackfile_regen_cache envFreshW rfl⟩

/-- C8: first conjunct — when `tackfile.c` is present, configuration
loading is enabled, the cached generated INI is stale, and compiling or
executing the generator fails, the whole invocation returns exit code 2
from the configuration step, which `main` reaches before target discovery
and before any call of `build_one_target` (tack.c:4099-4104 precede
tack.c:4115 and every build dispatch).  Second conjunct — under
`--no-config` the load step returns immediately: the generator step is
never attempted and no error is possible. -/
theorem tackfile_failure_fatal :
    (∀ e : Env, e.tackfile_exists = true → e.no_config = false →
       genIniCacheFresh e = false → e.write_gen_ok = true →
       (e.compile_ok = false ∨ e.run_ok = false) →
       main_config_phase e = Except.error 2) ∧
    (∀ e : Env, e.no_config = true →
       (config_auto_load e initialState).gen_attempted = false ∧
       (config_auto_load e initialState).err = false) := by
  constructor
  · intro e h1 h2 h3 h4 h5
    have hpr : (tackfile_prepare_generated_ini e).err = true := by
      unfold tackfile_prepare_generated_ini
      rw [h1, h3]
      rcases h5 with h | h <;> simp [h4, h]
    simp [main_config_phase, config_auto_load, h1, h2, hpr]
  · intro e h
    simp [config_auto_load, h]

/-- Environment for the `C8` witness: stale cache, generator compile
fails. -/
def env8W : Env :=
  { no_config := false, tackfile_exists := true, tackfile_mtime := 5,
    gen_ini_mtime := none, write_gen_ok := true, compile_ok := false,
    run_ok := true, gen_ini_content := none, cli_config := none,
    tack_ini_exists := false, file_content := fun _ => none }

theorem tackfile_failure_fatal_witness :
    (genIniCacheFresh env8W = false ∧ (env8W.compile_ok = false ∨ env8W.run_ok = false)) ∧
    main_config_phase env8W = Except.error 2 :=
  ⟨⟨by decide, Or.inl rfl⟩,
   tackfile_failure_fatal.1 env8W rfl rfl (by decide) rfl (Or.inl rfl)⟩

/-- The document the tackfile generator produces in the `C2` scenario:
one target (`gen`) plus an override key (`core`), defined only by the
code-bootstrap layer. -/
def genDocW : List String :=
  ["# generated from tackfile.c", "", "[project]", "",
   "[target \"gen\"]", "src = extras/gen", "bin = gen", "core = yes", ""]

/-- The declarative document of the `C2` scenario: defines only `other`. -/
def tackIniDocW : List String := ["[target \"other\"]", "src = src/other"]

/-- Environment for `C2`: both `tackfile.c` (with a fresh cached generated
INI) and `tack.ini` are present. -/
def env2W : Env :=
  { no_config := false, tackfile_exists := true, tackfile_mtime := 5,
    gen_ini_mtime := some 10, write_gen_ok := true, compile_ok := true,
    run_ok := true, gen_ini_content := some genDocW, cli_config := none,
    tack_ini_exists := true,
    file_content := fun p => if p = "tack.ini" then some tackIniDocW else none }

/-- C2 evaluated at the failing input: loading succeeds, but because
`ini_load_file` re-initializes the global target and override vectors on
every call (tack.c:2815-2816), loading `tack.ini` on top of the generated
layer wipes the code-bootstrap layer: the final configuration holds only
`other`, the override table is empty, and the target `gen` — defined only
by the code-bootstrap layer — is absent from the final target graph,
contradicting the documented layering (tack.c:3007-3009: "Then tack loads
tack.ini (or --config <path>) on top, so INI can override tackfile.c"). -/
theorem config_layering_drops_code_layer :
    (config_auto_load env2W initialState).err = false ∧
    ((config_auto_load env2W initialState).st.ini_targets.map
      (fun t => t.name)) = ["other"] ∧
    (config_auto_load env2W initialState).st.ini_overrides = [] ∧
    tv_find_index_by_name
      (apply_ini_targets (config_auto_load env2W initialState).st.loaded
        (config_auto_load env2W initialState).st.ini_targets
        (tv_push [] "app" "src" "app"))
      "gen" = none := by
  decide

/-! ### Scheduler lemmas for C5 -/

/-- Number of in-flight processes after a trace, starting from `k`. -/
def inflightAfter (k : Nat) : List Ev → Nat
  | [] => k
  | Ev.spawn _ :: r => inflightAfter (k + 1) r
  | Ev.reap _ :: r => inflightAfter (k - 1) r

theorem spawnIds_append : ∀ a b : List Ev, spawnIds (a ++ b) = spawnIds a ++ spawnIds b := by
  intro a b
  induction a with
  | nil => simp [spawnIds]
  | cons e r ih => cases e <;> simp [spawnIds, ih]

theorem reapIds_append : ∀ a b : List Ev, reapIds (a ++ b) = reapIds a ++ reapIds b := by
  intro a b
  induction a with
  | nil => simp [reapIds]
  | cons e r ih => cases e <;> simp [reapIds, ih]

theorem inflightAfter_append : ∀ (a : List Ev) (k : Nat) (b : List Ev),
    inflightAfter k (a ++ b) = inflightAfter (inflightAfter k a) b := by
  intro a
  induction a with
  | nil => intro k b; simp [inflightAfter]
  | cons e r ih => intro k b; cases e <;> simp [inflightAfter, ih]

theorem windowOK_append (jobs : Nat) : ∀ (a : List Ev) (k : Nat) (b : List Ev),
    windowOK jobs (a ++ b) k =
      (windowOK jobs a k && windowOK jobs b (inflightAfter k a)) := by
  intro a
  induction a with
  | nil => intro k b; simp [windowOK, inflightAfter]
  | cons e r ih =>
    intro k b
    cases e <;> simp [windowOK, inflightAfter, ih, Bool.and_assoc]

theorem cs_drain_window (jobs : Nat) : ∀ (running : List (Nat × Nat)) (tr : List Ev)
    (k : Nat), windowOK jobs (cs_drain running tr).1 k = windowOK jobs tr k := by
  intro running tr
  induction running, tr using cs_drain.induct with
  | case1 tr => intro k; simp [cs_drain]
  | case2 i c rest tr hc =>
    intro k
    simp [cs_drain, hc, windowOK_append, windowOK]
  | case3 i c rest tr hc ih =>
    intro k
    simp only [cs_drain, if_neg hc]
    rw [ih k, windowOK_append]
    simp [windowOK]

theorem cs_drain_fifo : ∀ (running : List (Nat × Nat)) (tr : List Ev),
    spawnIds tr = reapIds tr ++ running.map Prod.fst →
    ∃ s, spawnIds (cs_drain running tr).1 = reapIds (cs_drain running tr).1 ++ s := by
  intro running tr
  induction running, tr using cs_drain.induct with
  | case1 tr =>
    intro hinv
    exact ⟨[], by simpa [cs_drain] using hinv⟩
  | case2 i c rest tr hc =>
    intro hinv
    refine ⟨rest.map Prod.fst, ?_⟩
    simp only [cs_drain, if_pos hc, spawnIds_append, reapIds_append]
    simp only [List.map_cons] at hinv
    simp [spawnIds, reapIds, hinv]
  | case3 i c rest tr hc ih =>
    intro hinv
    simp only [cs_drain, if_neg hc]
    apply ih
    simp only [spawnIds_append, reapIds_append, spawnIds, reapIds]
    simp only [List.map_cons] at hinv
    simp [hinv]

theorem cs_loop_window (jobs : Nat) (hj : 1 ≤ jobs) :
    ∀ (rem : List (Nat × Job)) (running : List (Nat × Nat)) (tr : List Ev) (k : Nat),
    running.length ≤ jobs →
    windowOK jobs tr k = true →
    inflightAfter k tr = running.length →
    windowOK jobs (cs_loop jobs rem running tr).1 k = true := by
  intro rem running tr
  induction rem, running, tr using cs_loop.induct jobs with
  | case1 running tr =>
    intro k hlen htr hinf
    simp only [cs_loop]
    rw [cs_drain_window]
    exact htr
  | case2 i j rest running tr hnd ih =>
    intro k hlen htr hinf
    simp only [cs_loop, if_pos hnd]
    exact ih k hlen htr hinf
  | case3 i j rest tr hnd hsp hfull =>
    intro k hlen htr hinf
    simp at hfull
    omega
  | case4 i j rest tr hnd hsp hfull ih =>
    intro k hlen htr hinf
    simp at hfull
    omega
  | case5 i j rest tr hnd oid ocode rtail hoc hfull =>
    intro k hlen htr hinf
    simp only [cs_loop, if_neg hnd, if_pos hfull, if_pos hoc]
    rw [windowOK_append, htr]
    simp [windowOK]
  | case6 i j rest tr hnd oid ocode rtail hoc hsp hfull =>
    intro k hlen htr hinf
    simp only [cs_loop, if_neg hnd, if_pos hfull, if_neg hoc, if_pos hsp]
    rw [windowOK_append, htr]
    simp [windowOK]
  | case7 i j rest tr hnd oid ocode rtail hoc hsp hfull ih =>
    intro k hlen htr hinf
    simp only [cs_loop, if_neg hnd, if_pos hfull, if_neg hoc, if_neg hsp]
    simp only [List.length_cons] at hlen hfull hinf
    apply ih k
    · simp only [List.length_append, List.length_cons, List.length_nil]
      omega
    · rw [windowOK_append, htr, hinf]
      simp [windowOK]
      omega
    · rw [inflightAfter_append, hinf]
      simp [inflightAfter]
  | case8 i j rest running tr hnd hfull hsp =>
    intro k hlen htr hinf
    simp only [cs_loop, if_neg hnd, if_neg hfull, if_pos hsp]
    exact htr
  | case9 i j rest running tr hnd hfull hsp ih =>
    intro k hlen htr hinf
    simp only [cs_loop, if_neg hnd, if_neg hfull, if_neg hsp]
    apply ih k
    · simp only [List.length_append, List.length_cons, List.length_nil]
      omega
    · rw [windowOK_append, htr, hinf]
      simp [windowOK]
      omega
    · rw [inflightAfter_append, hinf]
      simp [inflightAfter]

theorem cs_loop_fifo (jobs : Nat) :
    ∀ (rem : List (Nat × Job)) (running : List (Nat × Nat)) (tr : List Ev),
    spawnIds tr = reapIds tr ++ running.map Prod.fst →
    ∃ s, spawnIds (cs_loop jobs rem running tr).1 =
         reapIds (cs_loop jobs rem running tr).1 ++ s := by
  intro rem running tr
  induction rem, running, tr using cs_loop.induct jobs with
  | case1 running tr =>
    intro hinv
    simp only [cs_loop]
    exact cs_drain_fifo running tr hinv
  | case2 i j rest running tr hnd ih =>
    intro hinv
    simp only [cs_loop, if_pos hnd]
    exact ih hinv
  | case3 i j rest tr hnd hsp hfull =>
    intro hinv
    simp only [cs_loop, if_neg hnd, if_pos hfull, if_pos hsp]
    exact ⟨[], by simpa using hinv⟩
  | case4 i j rest tr hnd hsp hfull ih =>
    intro hinv
    simp only [cs_loop, if_neg hnd, if_pos hfull, if_neg hsp]
    apply ih
    simp only [spawnIds_append, reapIds_append, spawnIds, reapIds] at hinv ⊢
    simp [hinv]
  | case5 i j rest tr hnd oid ocode rtail hoc hfull =>
    intro hinv
    simp only [cs_loop, if_neg hnd, if_pos hfull, if_pos hoc]
    refine ⟨rtail.map Prod.fst, ?_⟩
    simp only [spawnIds_append, reapIds_append, spawnIds, reapIds]
    simp only [List.map_cons] at hinv
    simp [hinv]
  | case6 i j rest tr hnd oid ocode rtail hoc hsp hfull =>
    intro hinv
    simp only [cs_loop, if_neg hnd, if_pos hfull, if_neg hoc, if_pos hsp]
    refine ⟨rtail.map Prod.fst, ?_⟩
    simp only [spawnIds_append, reapIds_append, spawnIds, reapIds]
    simp only [List.map_cons] at hinv
    simp [hinv]
  | case7 i j rest tr hnd oid ocode rtail hoc hsp hfull ih =>
    intro hinv
    simp only [cs_loop, if_neg hnd, if_pos hfull, if_neg hoc, if_neg hsp]
    apply ih
    simp only [spawnIds_append, reapIds_append, spawnIds, reapIds]
    simp only [List.map_cons] at hinv
    simp [hinv]
  | case8 i j rest running tr hnd hfull hsp =>
    intro hinv
    simp only [cs_loop, if_neg hnd, if_neg hfull, if_pos hsp]
    exact ⟨running.map Prod.fst, hinv⟩
  | case9 i j rest running tr hnd hfull hsp ih =>
    intro hinv
    simp only [cs_loop, if_neg hnd, if_neg hfull, if_neg hsp]
    apply ih
    simp only [spawnIds_append, reapIds_append, spawnIds, reapIds]
    simp [hinv]

/-- C5: for every job list and every `max_parallel > 1`, the parallel
scheduler keeps at most `max_parallel` spawned-but-not-yet-waited
processes at every point of its event trace (`windowOK`), and processes
are waited in exactly their spawn order (the waited ids form a prefix of
the spawned ids) — FIFO admission: when the window is full, the oldest
still-tracked process is the one waited before the next spawn. -/
theorem compile_sched_window_fifo (jobs : Nat) (js : List Job) (hj : 2 ≤ jobs) :
    windowOK jobs (compile_sources_sched jobs js).1 0 = true ∧
    ∃ s, spawnIds (compile_sources_sched jobs js).1 =
         reapIds (compile_sources_sched jobs js).1 ++ s := by
  have hlt : ¬jobs < 1 := by omega
  have hne : ¬jobs = 1 := by omega
  unfold compile_sources_sched
  simp only [if_neg hlt, if_neg hne]
  constructor
  · exact cs_loop_window jobs (by omega) js.enum [] [] 0 (by simp)
      (by simp [windowOK]) (by simp [inflightAfter])
  · simpa using cs_loop_fifo jobs js.enum [] [] (by simp [spawnIds, reapIds])

theorem compile_sched_window_fifo_witness :
    (2 ≤ 2) ∧
    (windowOK 2 (compile_sources_sched 2
        [⟨true, true, 0⟩, ⟨true, true, 0⟩, ⟨true, true, 0⟩]).1 0 = true ∧
     ∃ s, spawnIds (compile_sources_sched 2
            [⟨true, true, 0⟩, ⟨true, true, 0⟩, ⟨true, true, 0⟩]).1 =
          reapIds (compile_sources_sched 2
            [⟨true, true, 0⟩, ⟨true, true, 0⟩, ⟨true, true, 0⟩]).1 ++ s) :=
  ⟨by decide,
   compile_sched_window_fifo 2 [⟨true, true, 0⟩, ⟨true, true, 0⟩, ⟨true, true, 0⟩]
     (by decide)⟩

end Tack
